import Mathlib

/-!
Verification development for the Finn_AI finance question-answering pipeline.

The Python sources `src/agent/tools.py` and `src/agent/planner.py` are shallowly
embedded below.  Monetary amounts and fx rates are modelled as rationals
(machine floats idealised as exact arithmetic); the Python float value
`float(+inf)` produced by the cash-runway metric is modelled by the
two-constructor type `PyFloat`; Python exceptions (the `ValueError` raised by
`pandas.Timestamp` on an out-of-range month) are modelled with `Except`.
Question text is modelled as `List Char`, and the regular-expression searches
of `planner.py` are embedded as explicit left-to-right scanners with the same
leftmost-match, alternation-in-order and greedy-with-backtracking behaviour on
the concrete patterns appearing in the source.
-/

namespace FinnAI

/- The Batteries rational-number operations are marked irreducible, which
blocks `decide`-style evaluation of closed goals; re-allow unfolding for this
development so that concrete datasets can be evaluated by the kernel. -/
attribute [local semireducible] Rat.mul Rat.add Rat.sub Rat.inv

/-! ### Text primitives (Python `str.lower`, character classes of `re`) -/

/-- ASCII lowercasing of one character, as `str.lower` acts on the ASCII range
(the data and questions in this repository are ASCII). -/
def lowerChar (c : Char) : Char :=
  if 'A' ≤ c ∧ c ≤ 'Z' then Char.ofNat (c.toNat + 32) else c

/-- `text.lower()` on a character list. -/
def lowerList (s : List Char) : List Char := s.map lowerChar

/-- `str.lower` on a Lean string. -/
def strLower (s : String) : String := String.mk (lowerList s.data)

/-- ASCII uppercasing of one character (`str.upper`). -/
def upperChar (c : Char) : Char :=
  if 'a' ≤ c ∧ c ≤ 'z' then Char.ofNat (c.toNat - 32) else c

/-- `str.upper` on a Lean string. -/
def strUpper (s : String) : String := String.mk (s.data.map upperChar)

/-- The character class `\s` of Python `re` (space, tab, newline, return,
form feed, vertical tab). -/
def isWs (c : Char) : Bool :=
  c = ' ' || c = '\t' || c = '\n' || c = '\r' || c = Char.ofNat 11 || c = Char.ofNat 12

/-- The character class `\d` of Python `re`. -/
def isDigitCh (c : Char) : Bool := '0' ≤ c && c ≤ '9'

/-- The word-character class `\w` used by the `\b` boundary of Python `re`. -/
def isWordChar (c : Char) : Bool :=
  isDigitCh c || ('a' ≤ c && c ≤ 'z') || ('A' ≤ c && c ≤ 'Z') || c = '_'

/-- Literal-pattern match at the current position. -/
def pfx : List Char → List Char → Bool
  | [], _ => true
  | _ :: _, [] => false
  | a :: aTl, b :: bTl => a == b && pfx aTl bTl

/-- `re.search` existence: scan every start position, leftmost first, with the
position matcher `f` (`f` receives the suffix starting at the position). -/
def scanB (f : List Char → Bool) : List Char → Bool
  | [] => f []
  | c :: t => f (c :: t) || scanB f t

/-- `re.search` with extraction: the result of the leftmost position at which
the position matcher `f` succeeds. -/
def scanO {α : Type} (f : List Char → Option α) : List Char → Option α
  | [] => f []
  | c :: t =>
    match f (c :: t) with
    | some r => some r
    | none => scanO f t

/-- Plain substring search (`re.search` of a literal pattern). -/
def containsSub (pat : List Char) (s : List Char) : Bool := scanB (pfx pat) s

/-- Position matcher for `P₂` preceded by `.*`: the remainder starts with
`p2` now or after any characters other than a newline (`.` of `re` does not
match a newline). -/
def dotStarThen (p2 : List Char) : List Char → Bool
  | [] => pfx p2 []
  | c :: t => pfx p2 (c :: t) || ((c != '\n') && dotStarThen p2 t)

/-- `re.search(p1 ++ ".*" ++ p2)` as a Boolean. -/
def seqDotStar (p1 p2 : List Char) (s : List Char) : Bool :=
  scanB (fun r => pfx p1 r && dotStarThen p2 (r.drop p1.length)) s

/-- Position matcher for `P₂` preceded by `\s*`. -/
def wsStarThen (p2 : List Char) : List Char → Bool
  | [] => pfx p2 []
  | c :: t => pfx p2 (c :: t) || (isWs c && wsStarThen p2 t)

/-- `re.search(p1 ++ "\s*" ++ p2)` as a Boolean. -/
def seqWsStar (p1 p2 : List Char) (s : List Char) : Bool :=
  scanB (fun r => pfx p1 r && wsStarThen p2 (r.drop p1.length)) s

/-- Position matcher for `P₂` preceded by `\s+` (at least one whitespace). -/
def wsPlusThen (p2 : List Char) : List Char → Bool
  | [] => false
  | c :: t => isWs c && wsStarThen p2 t

/-- `re.search(p1 ++ "\s+" ++ p2)` as a Boolean. -/
def seqWsPlus (p1 p2 : List Char) (s : List Char) : Bool :=
  scanB (fun r => pfx p1 r && wsPlusThen p2 (r.drop p1.length)) s

/-- Consume `\s+`: require one whitespace character, then consume the maximal
whitespace run (exact for the source patterns, where the token after `\s+`
never starts with whitespace). -/
def consumeWs1 : List Char → Option (List Char)
  | [] => none
  | c :: t => if isWs c then some (t.dropWhile isWs) else none

/-- The maximal leading digit run. -/
def takeDigits (s : List Char) : List Char := s.takeWhile isDigitCh

/-- Drop the maximal leading digit run. -/
def dropDigits (s : List Char) : List Char := s.dropWhile isDigitCh

/-- Numeric value of a digit character. -/
def digitVal (c : Char) : Nat := c.toNat - 48

/-- `int(...)` on a nonempty digit string. -/
def digitsToNat (ds : List Char) : Nat := ds.foldl (fun acc c => 10 * acc + digitVal c) 0

/-! ### Numeric rendering (the f-string formats used by `planner.py`) -/

/-- Decimal digits of a natural number, most significant first (fuel-based). -/
def natDigitsAux : Nat → Nat → List Char
  | 0, _ => []
  | fuel + 1, n =>
    if n < 10 then [Char.ofNat (48 + n)]
    else natDigitsAux fuel (n / 10) ++ [Char.ofNat (48 + n % 10)]

/-- Decimal digit characters of a natural number. -/
def natToChars (n : Nat) : List Char := natDigitsAux (n + 1) n

/-- `str(n)` for a natural number. -/
def natStr (n : Nat) : String := String.mk (natToChars n)

/-- `f"{n:02d}"`: zero-pad to width 2. -/
def pad2 (n : Nat) : String := if n < 10 then "0" ++ natStr n else natStr n

/-- `%Y`: zero-pad to width 4. -/
def pad4 (n : Nat) : String :=
  if n < 10 then "000" ++ natStr n
  else if n < 100 then "00" ++ natStr n
  else if n < 1000 then "0" ++ natStr n
  else natStr n

/-- Insert thousands separators walking the reversed digit list. -/
def addCommasRev : List Char → Nat → List Char
  | [], _ => []
  | [c], _ => [c]
  | c :: t, i =>
    c :: (if (i + 1) % 3 = 0 then ',' :: addCommasRev t (i + 1) else addCommasRev t (i + 1))

/-- Thousands-grouped decimal rendering of a natural number. -/
def fmtNatComma (n : Nat) : String := String.mk (addCommasRev (natToChars n).reverse 0).reverse

/-- Round-half-even to an integer, the rounding of Python float formatting
(idealised at the rational level; the sign of a negative zero is not
modelled, no claim depends on it). -/
def pyRound0 (q : ℚ) : ℤ :=
  let f := ⌊q⌋
  let r := q - f
  if r < 1 / 2 then f
  else if 1 / 2 < r then f + 1
  else if f % 2 = 0 then f else f + 1

/-- `f"{x:,.0f}"`: grouped integer rendering of a finite amount. -/
def fmtComma0 (q : ℚ) : String :=
  let i := pyRound0 q
  if i < 0 then "-" ++ fmtNatComma i.natAbs else fmtNatComma i.natAbs

/-- `f"{x:.1f}"` for a finite value: one decimal place, round half-even. -/
def fmtFixed1 (q : ℚ) : String :=
  let t := pyRound0 (q * 10)
  let sgn : String := if t < 0 then "-" else ""
  let n := t.natAbs
  sgn ++ natStr (n / 10) ++ "." ++ natStr (n % 10)

/-- A Python float that is either finite or the positive infinity produced by
`float("inf")` in `cash_runway_months` (no other non-finite value arises). -/
inductive PyFloat : Type
  | fin (q : ℚ)
  | inf
deriving DecidableEq

/-- `f"{x:.1f}"` on a possibly infinite float: Python renders the infinity as
the string `inf` through the same numeric format specifier. -/
def fmtFloat1 : PyFloat → String
  | .fin q => fmtFixed1 q
  | .inf => "inf"

/-! ### Data model: periods, ledger rows, fx rows, cash rows -/

/-- A calendar period (year, month), ordered lexicographically: the identity
pandas uses after truncating any date to the first day of its month. -/
abbrev Period : Type := Nat ×ₗ Nat

instance : DecidableEq Period := inferInstanceAs (DecidableEq (Nat × Nat))

/-- Build a period from year and month. -/
def mkP (y m : Nat) : Period := toLex (y, m)

/-- Year component of a period. -/
def Period.year (p : Period) : Nat := (ofLex p).1

/-- Month component of a period. -/
def Period.month (p : Period) : Nat := (ofLex p).2

/-- A calendar date as handed to `pd.to_datetime`; only year and month
survive the `to_period("M")` truncation performed by every consumer. -/
structure Date : Type where
  year : Nat
  month : Nat
  day : Nat
deriving DecidableEq

/-- `pd.to_datetime(x).dt.to_period("M").dt.to_timestamp()`: truncation of a
date to its period. -/
def periodOf (d : Date) : Period := mkP d.year d.month

/-- One actuals or budget line (`date, entity, account, currency, amount`). -/
structure LedgerRow : Type where
  date : Date
  entity : String
  account : String
  currency : String
  amount : ℚ
deriving DecidableEq

/-- One fx-rate line (`date, currency, rate_to_usd`). -/
structure FxRow : Type where
  date : Date
  currency : String
  rate_to_usd : ℚ
deriving DecidableEq

/-- One cash-balance line (`date, entity, currency, cash`). -/
structure CashRow : Type where
  date : Date
  entity : String
  currency : String
  cash : ℚ
deriving DecidableEq

/-- The four loaded datasets handed to the core by the ingestion layer. -/
structure Dfs : Type where
  actuals : List LedgerRow
  budget : List LedgerRow
  fx : List FxRow
  cash : List CashRow
deriving DecidableEq

/-- A ledger row after `_merge_fx` and `_normalize_accounts`: period-truncated
date, lower-cased account, fx rate (defaulted to 1) and USD amount. -/
structure NRow : Type where
  period : Period
  accountNorm : String
  currency : String
  amount : ℚ
  rate : ℚ
  amountUsd : ℚ
deriving DecidableEq

/-- The fx rows joined to a given (period, currency) key by the left merge. -/
def fxMatches (fx : List FxRow) (p : Period) (cur : String) : List FxRow :=
  fx.filter (fun f => periodOf f.date = p ∧ f.currency = cur)

/-- `_normalize_accounts(_merge_fx(df, fx))` on a ledger: pandas left merge on
(month-truncated date, currency); a row with no fx match keeps rate
`fillna(1.0)`; a row with matches is repeated once per matching fx row;
`amount_usd = amount * rate_to_usd`; `account_norm = account.lower()`. -/
def mergeFxLedger (df : List LedgerRow) (fx : List FxRow) : List NRow :=
  df.flatMap (fun r =>
    let p := periodOf r.date
    match fxMatches fx p r.currency with
    | [] => [⟨p, strLower r.account, r.currency, r.amount, 1, r.amount * 1⟩]
    | ms => ms.map (fun f =>
        ⟨p, strLower r.account, r.currency, r.amount, f.rate_to_usd, r.amount * f.rate_to_usd⟩))

/-- A cash row after the rename `cash → amount` and `_merge_fx`. -/
structure CRow : Type where
  period : Period
  currency : String
  amount : ℚ
  rate : ℚ
  amountUsd : ℚ
deriving DecidableEq

/-- `_merge_fx(cash.rename(columns={"cash": "amount"}), fx)`. -/
def mergeFxCash (cash : List CashRow) (fx : List FxRow) : List CRow :=
  cash.flatMap (fun r =>
    let p := periodOf r.date
    match fxMatches fx p r.currency with
    | [] => [⟨p, r.currency, r.cash, 1, r.cash * 1⟩]
    | ms => ms.map (fun f => ⟨p, r.currency, r.cash, f.rate_to_usd, r.cash * f.rate_to_usd⟩))

/-! ### Account classification and per-period sums (`ACCOUNT_ALIASES`,
`_sum_by_account`, the groupby sums of `_series_gm` / `_series_ebitda`) -/

/-- Membership in the revenue alias set. -/
def isRevAcc (a : String) : Bool := a = "revenue" || a = "total revenue"

/-- Membership in the cogs alias set. -/
def isCogsAcc (a : String) : Bool := a = "cogs" || a = "cost of goods sold"

/-- `account_norm.startswith("opex:")`. -/
def isOpexAcc (a : String) : Bool := a.startsWith "opex:"

/-- Sum of `amount_usd` over the rows of one period selected by `sel`
(a pandas masked / grouped sum; summation order is immaterial in ℚ). -/
def sumSel (rows : List NRow) (p : Period) (sel : String → Bool) : ℚ :=
  ((rows.filter (fun n => n.period = p && sel n.accountNorm)).map NRow.amountUsd).sum

/-- Revenue sum for one period. -/
def sumRev (rows : List NRow) (p : Period) : ℚ := sumSel rows p isRevAcc

/-- Cogs sum for one period. -/
def sumCogs (rows : List NRow) (p : Period) : ℚ := sumSel rows p isCogsAcc

/-- Opex sum for one period. -/
def sumOpex (rows : List NRow) (p : Period) : ℚ := sumSel rows p isOpexAcc

/-- `pd.Timestamp(year=year, month=month, day=1)`: raises `ValueError` when
the month is outside 1..12, otherwise the month-truncated timestamp. -/
def mkTimestamp (year month : Nat) : Except String Period :=
  if 1 ≤ month ∧ month ≤ 12 then .ok (mkP year month)
  else .error "ValueError: month must be in 1..12"

/-- `_sum_by_account(df, year, month, account_key)`. -/
def sumByAccount (rows : List NRow) (year month : Nat) (key : String) :
    Except String ℚ := do
  let p ← mkTimestamp year month
  if key = "opex" then pure (sumOpex rows p)
  else if key = "revenue" then pure (sumRev rows p)
  else if key = "cogs" then pure (sumCogs rows p)
  else pure 0

/-! ### Period index of a groupby (sorted distinct keys) -/

/-- The index of a pandas groupby over the listed keys: the distinct keys in
ascending order. -/
def sortedIndex (ps : List Period) : List Period :=
  ps.dedup.insertionSort (· ≤ ·)

/-- `DataFrame.tail(n)`: the last `n` entries. -/
def tailN (n : Nat) (l : List α) : List α := l.drop (l.length - n)

/-! ### `_series_gm`, `_series_ebitda`, `_series_opex` -/

/-- One row of the `_series_gm` frame. -/
structure GmRow : Type where
  period : Period
  revenue : ℚ
  cogs : ℚ
  gmPct : ℚ
deriving DecidableEq

/-- The period index of `_series_gm`: distinct months of the rows classified
as revenue or cogs (the union of the two groupby indices, ascending). -/
def gmIndex (rows : List NRow) : List Period :=
  sortedIndex ((rows.filter (fun n => isRevAcc n.accountNorm || isCogsAcc n.accountNorm)).map
    NRow.period)

/-- `_series_gm(dfa)`: per month, revenue and cogs sums (absent groups filled
with 0), `gm = revenue - cogs`, `gm_pct = gm / revenue * 100` where revenue is
nonzero; months with zero revenue get NaN and are dropped by
`dropna(subset=["gm_pct"])`. -/
def seriesGm (rows : List NRow) : List GmRow :=
  (gmIndex rows).filterMap (fun p =>
    let r := sumRev rows p
    let c := sumCogs rows p
    if r ≠ 0 then some ⟨p, r, c, (r - c) / r * 100⟩ else none)

/-- One row of the `_series_ebitda` frame. -/
structure EbRow : Type where
  period : Period
  revenue : ℚ
  cogs : ℚ
  opex : ℚ
  ebitda : ℚ
deriving DecidableEq

/-- The period index of `_series_ebitda`: distinct months of the rows
classified as revenue, cogs or opex, ascending. -/
def ebIndex (rows : List NRow) : List Period :=
  sortedIndex ((rows.filter (fun n =>
    isRevAcc n.accountNorm || isCogsAcc n.accountNorm || isOpexAcc n.accountNorm)).map
    NRow.period)

/-- `_series_ebitda(dfa)`: per month, revenue, cogs and opex sums (absent
groups filled with 0) and `ebitda = revenue - cogs - opex`. -/
def seriesEbitda (rows : List NRow) : List EbRow :=
  (ebIndex rows).map (fun p =>
    let r := sumRev rows p
    let c := sumCogs rows p
    let o := sumOpex rows p
    ⟨p, r, c, o, r - c - o⟩)

/-! ### Charts (plotly figures as plain data) -/

/-- The chart specifications built by the four metric functions. -/
inductive Chart : Type
  | barPair (actual budget : ℚ)
  | line (pts : List (Period × ℚ))
  | pie (items : List (String × ℚ))
  | barLine (ebitda : List (Period × ℚ)) (cash : List (Period × ℚ))
deriving DecidableEq

/-! ### The four metric functions -/

/-- Result of `revenue_vs_budget_usd`. -/
structure RvbResult : Type where
  actualUsd : ℚ
  budgetUsd : ℚ
  varianceUsd : ℚ
  variancePct : ℚ
  chart : Chart
deriving DecidableEq

/-- `revenue_vs_budget_usd(dfs, year, month)`.  The intermediate
`variance_pct` is NaN when the budget is zero (modelled as `none`) and the
returned field replaces NaN by `0.0`. -/
def revenueVsBudgetUsd (dfs : Dfs) (year month : Nat) : Except String RvbResult := do
  let actuals := mergeFxLedger dfs.actuals dfs.fx
  let budget := mergeFxLedger dfs.budget dfs.fx
  let a ← sumByAccount actuals year month "revenue"
  let b ← sumByAccount budget year month "revenue"
  let variance := a - b
  let variancePctRaw : Option ℚ := if b ≠ 0 then some (variance / b * 100) else none
  pure ⟨a, b, variance, variancePctRaw.getD 0, Chart.barPair a b⟩

/-- An entry of the series returned by `gross_margin_trend_pct`: the period
rendered by `strftime("%Y-%m")` and the margin percentage. -/
structure GmEntry : Type where
  period : String
  gmPct : ℚ
deriving DecidableEq

/-- `strftime("%Y-%m")`. -/
def fmtYm (p : Period) : String := pad4 p.year ++ "-" ++ pad2 p.month

/-- Result of `gross_margin_trend_pct`. -/
structure GmtResult : Type where
  chart : Chart
  series : List GmEntry
deriving DecidableEq

/-- `gross_margin_trend_pct(dfs, last_n)`. -/
def grossMarginTrendPct (dfs : Dfs) (lastN : Nat) : GmtResult :=
  let rows := mergeFxLedger dfs.actuals dfs.fx
  let s := tailN lastN (seriesGm rows)
  ⟨Chart.line (s.map (fun g => (g.period, g.gmPct))),
   s.map (fun g => ⟨fmtYm g.period, g.gmPct⟩)⟩

/-- The distinct lower-cased opex accounts of one period, in the ascending
order of the `(ym, account_norm)` groupby index of `_series_opex`. -/
def opexAccountsAt (rows : List NRow) (p : Period) : List String :=
  ((rows.filter (fun n => n.period = p && isOpexAcc n.accountNorm)).map
    NRow.accountNorm).dedup.insertionSort (· ≤ ·)

/-- `str.replace("opex:", "", regex=False)` on an account label. -/
def stripOpex (a : String) : String :=
  if a.startsWith "opex:" then a.drop 5 else a

/-- `opex_breakdown_usd(dfs, year, month)`: pie of the per-line opex sums of
the requested period (empty pie when no row matches). -/
def opexBreakdownUsd (dfs : Dfs) (year month : Nat) : Except String Chart := do
  let rows := mergeFxLedger dfs.actuals dfs.fx
  let p ← mkTimestamp year month
  let accts := opexAccountsAt rows p
  pure (Chart.pie (accts.map (fun a =>
    (strUpper (stripOpex a),
     ((rows.filter (fun n => n.period = p && n.accountNorm = a)).map NRow.amountUsd).sum))))

/-- Result of `cash_runway_months` when EBITDA history exists. -/
structure CrResult : Type where
  months : PyFloat
  cashUsd : ℚ
  avgBurn : ℚ
  chart : Chart
deriving DecidableEq

/-- Mean of a rational list (`Series.mean`; only applied to nonempty lists). -/
def listMean (l : List ℚ) : ℚ := l.sum / l.length

/-- Cash sum (USD) at one period across entities and currencies. -/
def sumCashAt (rows : List CRow) (p : Period) : ℚ :=
  ((rows.filter (fun c => c.period = p)).map CRow.amountUsd).sum

/-- `cash_runway_months(dfs)`: trailing (up to) 3 EBITDA months; `None` when
no EBITDA month exists; `avg_burn = -mean(ebitda)`; total USD cash of the
latest cash period (`0.0` when the cash table is empty); runway infinite when
`avg_burn ≤ 0`, else `cash_usd / avg_burn`. -/
def cashRunwayMonths (dfs : Dfs) : Option CrResult :=
  let rows := mergeFxLedger dfs.actuals dfs.fx
  let e := tailN 3 (seriesEbitda rows)
  if e.isEmpty then none
  else
    let avgBurn := -(listMean (e.map EbRow.ebitda))
    let cashRows := mergeFxCash dfs.cash dfs.fx
    let cIdx := sortedIndex (cashRows.map CRow.period)
    let totalCash := tailN 1 (cIdx.map (fun p => sumCashAt cashRows p))
    let cashUsd : ℚ := match totalCash with
      | [c] => c
      | _ => 0
    let months : PyFloat := if avgBurn ≤ 0 then .inf else .fin (cashUsd / avgBurn)
    some ⟨months, cashUsd, avgBurn,
      Chart.barLine (e.map (fun r => (r.period, r.ebitda))) ((tailN 1 cIdx).zip totalCash)⟩

/-- `latest_month_in_actuals(actuals)`: the maximal month of the actuals, or
`None` when the table is empty. -/
def latestMonthInActuals (actuals : List LedgerRow) : Option Period :=
  (actuals.map (fun r => periodOf r.date)).foldl
    (fun acc p => match acc with
      | none => some p
      | some q => some (max q p)) none

/-! ### `_parse_month_year` -/

/-- The alternation branches of the month-name regex, in source order.  Each
branch carries its candidate spellings in greedy backtracking order (longest
optional expansion first) and the month number `MONTH_ALIASES[token[:3]]`. -/
def monthAlternation : List (List (List Char) × Nat) :=
  [ ([['j','a','n','u','a','r','y'], ['j','a','n']], 1),
    ([['f','e','b','r','u','a','r','y'], ['f','e','b']], 2),
    ([['m','a','r','c','h'], ['m','a','r']], 3),
    ([['a','p','r','i','l'], ['a','p','r']], 4),
    ([['m','a','y']], 5),
    ([['j','u','n','e'], ['j','u','n']], 6),
    ([['j','u','l','y'], ['j','u','l']], 7),
    ([['a','u','g','u','s','t'], ['a','u','g']], 8),
    ([['s','e','p','t','e','m','b','e','r'], ['s','e','p','t'], ['s','e','p']], 9),
    ([['o','c','t','o','b','e','r'], ['o','c','t']], 10),
    ([['n','o','v','e','m','b','e','r'], ['n','o','v']], 11),
    ([['d','e','c','e','m','b','e','r'], ['d','e','c']], 12) ]

/-- After a month token: `\s+` then the captured year `20\d{2}`. -/
def yearAfter (s : List Char) : Option Nat :=
  match consumeWs1 s with
  | none => none
  | some r =>
    match r with
    | '2' :: '0' :: a :: b :: _ =>
      if isDigitCh a && isDigitCh b then some (2000 + 10 * digitVal a + digitVal b) else none
    | _ => none

/-- Try the candidate spellings of one alternation branch at this position. -/
def tryCandidates (s : List Char) : List (List Char) → Option Nat
  | [] => none
  | c :: rest =>
    if pfx c s then
      match yearAfter (s.drop c.length) with
      | some y => some y
      | none => tryCandidates s rest
    else tryCandidates s rest

/-- Try the alternation branches in order at this position. -/
def tryAlternation (s : List Char) : List (List (List Char) × Nat) → Option (Nat × Nat)
  | [] => none
  | (cands, mo) :: rest =>
    match tryCandidates s cands with
    | some y => some (y, mo)
    | none => tryAlternation s rest

/-- Position matcher for the `"June 2025"`-style regex: a month name (with
greedy optional suffix), `\s+`, and a year `20\d{2}`; yields (year, month). -/
def monthYearAt (s : List Char) : Option (Nat × Nat) :=
  tryAlternation s monthAlternation

/-- Position matcher for the numeric pattern `(20\d{2})`, a separator `-`
or `/`, then `(\d{1,2})`: there is no trailing context, so the greedy month
capture takes the first one or two digits of the run after the separator. -/
def numericYmAt (s : List Char) : Option (Nat × Nat) :=
  match s with
  | '2' :: '0' :: a :: b :: rest =>
    if isDigitCh a && isDigitCh b then
      match rest with
      | sep :: r2 =>
        if sep = '-' ∨ sep = '/' then
          let ds := (takeDigits r2).take 2
          if ds.isEmpty then none
          else some (2000 + 10 * digitVal a + digitVal b, digitsToNat ds)
        else none
      | [] => none
    else none
  | _ => none

/-- `MONTH_ALIASES.items()` in dict insertion order, keys as char lists. -/
def monthAliasItems : List (List Char × Nat) :=
  [ (['j','a','n'], 1), (['j','a','n','u','a','r','y'], 1),
    (['f','e','b'], 2), (['f','e','b','r','u','a','r','y'], 2),
    (['m','a','r'], 3), (['m','a','r','c','h'], 3),
    (['a','p','r'], 4), (['a','p','r','i','l'], 4),
    (['m','a','y'], 5),
    (['j','u','n'], 6), (['j','u','n','e'], 6),
    (['j','u','l'], 7), (['j','u','l','y'], 7),
    (['a','u','g'], 8), (['a','u','g','u','s','t'], 8),
    (['s','e','p'], 9), (['s','e','p','t'], 9), (['s','e','p','t','e','m','b','e','r'], 9),
    (['o','c','t'], 10), (['o','c','t','o','b','e','r'], 10),
    (['n','o','v'], 11), (['n','o','v','e','m','b','e','r'], 11),
    (['d','e','c'], 12), (['d','e','c','e','m','b','e','r'], 12) ]

/-- No word character before the match position. -/
def prevOk : Option Char → Bool
  | none => true
  | some c => !isWordChar c

/-- No word character after the matched token. -/
def nextOk : List Char → Bool
  | [] => true
  | c :: _ => !isWordChar c

/-- Scan for the word-bounded literal `k` (the regex `\b k \b`), carrying the
previous character for the left boundary. -/
def wbScan (k : List Char) (prev : Option Char) : List Char → Bool
  | [] => pfx k [] && prevOk prev
  | c :: t =>
    (pfx k (c :: t) && prevOk prev && nextOk ((c :: t).drop k.length)) || wbScan k (some c) t

/-- `re.search(rf"\b{k}\b", text)` as a Boolean. -/
def wordBounded (k : List Char) (s : List Char) : Bool := wbScan k none s

/-- The `for k, v in MONTH_ALIASES.items()` loop: first key that occurs
word-bounded in the text. -/
def bareMonthSearch (s : List Char) : List (List Char × Nat) → Option Nat
  | [] => none
  | (k, v) :: rest => if wordBounded k s then some v else bareMonthSearch s rest

/-- `_parse_month_year(text, fallback)`: lower-case the text, then try the
month-name-plus-year regex, the numeric `YYYY-M` / `YYYY/M` regex, and the
bare-month-name loop (year from the fallback when the fallback is truthy);
with no match at all, return `(fallback, None)`. -/
def parseMonthYear (text : List Char) (fallback : Option Nat) : Option Nat × Option Nat :=
  let t := lowerList text
  match scanO monthYearAt t with
  | some (y, m) => (some y, some m)
  | none =>
    match scanO numericYmAt t with
    | some (y, m) => (some y, some m)
    | none =>
      match bareMonthSearch t monthAliasItems with
      | some m =>
        match fallback with
        | some y => if y ≠ 0 then (some y, some m) else (none, some m)
        | none => (none, some m)
      | none => (fallback, none)

/-! ### `_parse_window` -/

/-- Position matcher for `last\s+(\d{1,2})\s+months?`: the `\d{1,2}` capture
followed by `\s+` succeeds exactly when the maximal digit run has length one
or two (a longer run leaves a digit where whitespace is required), and the
optional `s?` imposes nothing beyond the literal `month`. -/
def windowAt (s : List Char) : Option Nat :=
  if pfx ['l','a','s','t'] s then
    match consumeWs1 (s.drop 4) with
    | none => none
    | some r1 =>
      let ds := takeDigits r1
      if ds.length = 1 ∨ ds.length = 2 then
        match consumeWs1 (dropDigits r1) with
        | none => none
        | some r3 => if pfx ['m','o','n','t','h'] r3 then some (digitsToNat ds) else none
      else none
  else none

/-- `_parse_window(text, default_last_n)` (the `re.I` flag is modelled by
lower-casing the text, equivalent for these letter-only patterns). -/
def parseWindow (text : List Char) (defaultLastN : Nat) : Nat :=
  match scanO windowAt (lowerList text) with
  | some n => n
  | none => defaultLastN

/-! ### Intent classification and `plan_and_execute` -/

/-- `re.search(r"revenue.*budget|vs\s*budget|budget.*revenue", ql)`. -/
def matchRevBudget (s : List Char) : Bool :=
  seqDotStar ['r','e','v','e','n','u','e'] ['b','u','d','g','e','t'] s ||
  seqWsStar ['v','s'] ['b','u','d','g','e','t'] s ||
  seqDotStar ['b','u','d','g','e','t'] ['r','e','v','e','n','u','e'] s

/-- `re.search(r"gross\s*margin", ql)`. -/
def matchGrossMargin (s : List Char) : Bool :=
  seqWsStar ['g','r','o','s','s'] ['m','a','r','g','i','n'] s

/-- Position matcher for `last\s+\d+\s+months`. -/
def lastNMonthsAt (s : List Char) : Bool :=
  pfx ['l','a','s','t'] s &&
  (match consumeWs1 (s.drop 4) with
   | none => false
   | some r1 =>
     !(takeDigits r1).isEmpty &&
     (match consumeWs1 (dropDigits r1) with
      | none => false
      | some r3 => pfx ['m','o','n','t','h','s'] r3))

/-- `re.search(r"trend|last\s+\d+\s+months|last\s+months", ql)`. -/
def matchTrendWindow (s : List Char) : Bool :=
  containsSub ['t','r','e','n','d'] s || scanB lastNMonthsAt s ||
  seqWsPlus ['l','a','s','t'] ['m','o','n','t','h','s'] s

/-- `re.search(r"opex|operating\s+expenses", ql)`. -/
def matchOpex (s : List Char) : Bool :=
  containsSub ['o','p','e','x'] s ||
  seqWsPlus ['o','p','e','r','a','t','i','n','g'] ['e','x','p','e','n','s','e','s'] s

/-- `re.search(r"break\s*down|breakdown", ql)`. -/
def matchBreakdown (s : List Char) : Bool :=
  seqWsStar ['b','r','e','a','k'] ['d','o','w','n'] s ||
  containsSub ['b','r','e','a','k','d','o','w','n'] s

/-- `re.search(r"cash\s*runway|runway", ql)`. -/
def matchRunway (s : List Char) : Bool :=
  seqWsStar ['c','a','s','h'] ['r','u','n','w','a','y'] s ||
  containsSub ['r','u','n','w','a','y'] s

/-- The five intents of the Question Interpreter. -/
inductive Intent : Type
  | revenueVsBudget
  | grossMarginTrend
  | opexBreakdown
  | cashRunway
  | unclassified
deriving DecidableEq

/-- The ordered intent rules of `plan_and_execute`, first match wins. -/
def classifyIntent (ql : List Char) : Intent :=
  if matchRevBudget ql then .revenueVsBudget
  else if matchGrossMargin ql && matchTrendWindow ql then .grossMarginTrend
  else if matchOpex ql && matchBreakdown ql then .opexBreakdown
  else if matchRunway ql then .cashRunway
  else .unclassified

/-- The default year threaded into parameter extraction: the year of the
latest actuals month, when one exists. -/
def defaultYearOf (dfs : Dfs) : Option Nat :=
  (latestMonthInActuals dfs.actuals).map Period.year

deriving instance DecidableEq for Except

/-- The interpreter output: narrative text and an optional chart. -/
structure PlanResult : Type where
  text : String
  chart : Option Chart
deriving DecidableEq

/-- The narrative of the revenue-vs-budget branch. -/
def rvbNarrative (year month : Nat) (res : RvbResult) : String :=
  "Revenue vs Budget for " ++ natStr year ++ "-" ++ pad2 month ++ ": Actual $" ++
    fmtComma0 res.actualUsd ++ " | Budget $" ++ fmtComma0 res.budgetUsd ++
    " | Variance $" ++ fmtComma0 res.varianceUsd ++ " (" ++ fmtFixed1 res.variancePct ++ "%)."

/-- The narrative of the gross-margin branch. -/
def gmNarrative (n : Nat) (series : List GmEntry) : String :=
  "Gross Margin % for last " ++ natStr n ++ " months: " ++
    String.intercalate ", " (series.map (fun e => e.period ++ ": " ++ fmtFixed1 e.gmPct ++ "%"))

/-- The narrative of the opex-breakdown branch. -/
def opexNarrative (year month : Nat) : String :=
  "Opex breakdown for " ++ natStr year ++ "-" ++ pad2 month ++ " (USD)."

/-- The narrative of the cash-runway branch; the months value goes through
the numeric `:.1f` format. -/
def runwayNarrative (res : CrResult) : String :=
  "Cash runway: " ++ fmtFloat1 res.months ++ " months (Cash $" ++ fmtComma0 res.cashUsd ++
    " / Avg monthly burn $" ++ fmtComma0 res.avgBurn ++ ")."

/-- The fixed guidance message of the unclassified branch. -/
def unclassifiedMsg : String :=
  "Sorry, I couldn't classify that question. Try: 'What was June 2025 revenue vs budget?'"

/-- The month-and-year prompt of the revenue-vs-budget branch. -/
def rvbPrompt : String := "Please include a month and year (e.g., 'June 2025')."

/-- The month-and-year prompt of the opex branch. -/
def opexPrompt : String := "Please include a month and year for the Opex breakdown."

/-- `plan_and_execute(q, dfs)`: lower-case the question, compute the default
year, then evaluate the four intent rules in order; branches needing a month
and year return a prompt when either is unresolved; an unhandled Python
exception surfaces as `Except.error`. -/
def planAndExecute (q : List Char) (dfs : Dfs) : Except String PlanResult :=
  let ql := lowerList q
  let defaultYear := defaultYearOf dfs
  if matchRevBudget ql then
    match parseMonthYear ql defaultYear with
    | (some year, some month) => do
      let res ← revenueVsBudgetUsd dfs year month
      pure ⟨rvbNarrative year month res, some res.chart⟩
    | _ => .ok ⟨rvbPrompt, none⟩
  else if matchGrossMargin ql && matchTrendWindow ql then
    let n := parseWindow ql 3
    let res := grossMarginTrendPct dfs n
    .ok ⟨gmNarrative n res.series, some res.chart⟩
  else if matchOpex ql && matchBreakdown ql then
    match parseMonthYear ql defaultYear with
    | (some year, some month) => do
      let chart ← opexBreakdownUsd dfs year month
      pure ⟨opexNarrative year month, some chart⟩
    | _ => .ok ⟨opexPrompt, none⟩
  else if matchRunway ql then
    match cashRunwayMonths dfs with
    | none => .ok ⟨"Not enough data to compute runway.", none⟩
    | some res => .ok ⟨runwayNarrative res, some res.chart⟩
  else
    .ok ⟨unclassifiedMsg, none⟩

/-! ### Spec-side definitions (written from the specification wording, to be
compared with the embedded code) -/

/-- The periods of the gross-margin history whose aggregated revenue is
nonzero, in chronological order: per the spec, the series must consist of
exactly the most recent of these. -/
def nzRevPeriods (rows : List NRow) : List Period :=
  (gmIndex rows).filter (fun p => sumRev rows p ≠ 0)

/-- The trailing (up to) three EBITDA periods, per the spec wording. -/
def trailingEbitdaPeriods (rows : List NRow) : List Period :=
  tailN 3 (ebIndex rows)

/-- Spec wording for the average burn: the negated mean of per-period EBITDA
(revenue − cogs − opex) over the trailing up-to-3 periods. -/
def specAvgBurn (rows : List NRow) : ℚ :=
  -(listMean ((trailingEbitdaPeriods rows).map
    (fun p => sumRev rows p - sumCogs rows p - sumOpex rows p)))

/-- The maximal period of a list, when one exists. -/
def maxPeriod : List Period → Option Period
  | [] => none
  | p :: t => some (t.foldl max p)

/-- Spec wording for the cash input of the runway: the total normalized cash
balance for the single latest period present in the cash data (0 when there
is no cash data). -/
def specCashUsd (cashRows : List CRow) : ℚ :=
  match maxPeriod (cashRows.map CRow.period) with
  | none => 0
  | some p => sumCashAt cashRows p

/-- The ordered rule table of the Question Interpreter, per the spec. -/
def intentRules : List ((List Char → Bool) × Intent) :=
  [ (matchRevBudget, .revenueVsBudget),
    (fun s => matchGrossMargin s && matchTrendWindow s, .grossMarginTrend),
    (fun s => matchOpex s && matchBreakdown s, .opexBreakdown),
    (matchRunway, .cashRunway) ]

/-- First-match-wins evaluation of an ordered rule table, falling back to the
unclassified intent. -/
def firstMatch : List ((List Char → Bool) × Intent) → List Char → Intent
  | [], _ => .unclassified
  | (p, i) :: rest, q => if p q then i else firstMatch rest q

/-! ### Shared lemmas -/

theorem tailN_length (n : Nat) (l : List α) : (tailN n l).length = min n l.length := by
  simp only [tailN, List.length_drop]
  omega

theorem tailN_map (f : α → β) (n : Nat) (l : List α) :
    tailN n (l.map f) = (tailN n l).map f := by
  simp [tailN, List.map_drop]

theorem tailN_suffix (n : Nat) (l : List α) : tailN n l <:+ l :=
  List.drop_suffix _ _

theorem tailN_sublist (n : Nat) (l : List α) : List.Sublist (tailN n l) l :=
  (tailN_suffix n l).sublist

theorem tailN_one (l : List α) (h : l ≠ []) : tailN 1 l = [l.getLast h] := by
  induction l with
  | nil => simp at h
  | cons a t ih =>
    cases t with
    | nil => simp [tailN]
    | cons b u =>
      have h2 : (b :: u) ≠ [] := by simp
      simp only [tailN, List.length_cons, List.getLast_cons h2]
      have e1 : (a :: b :: u).drop (u.length + 1 + 1 - 1) = (b :: u).drop (u.length + 1 - 1) := by
        simp [List.drop]
      rw [e1]
      have := ih h2
      simp only [tailN, List.length_cons] at this
      simpa using this

theorem mem_sortedIndex {p : Period} {ps : List Period} :
    p ∈ sortedIndex ps ↔ p ∈ ps := by
  unfold sortedIndex
  rw [(List.perm_insertionSort _ _).mem_iff, List.mem_dedup]

theorem sortedIndex_sorted_le (ps : List Period) :
    (sortedIndex ps).Sorted (· ≤ ·) :=
  List.sorted_insertionSort _ _

theorem sortedIndex_nodup (ps : List Period) : (sortedIndex ps).Nodup :=
  ((List.perm_insertionSort _ _).nodup_iff).mpr (List.nodup_dedup ps)

theorem sortedIndex_sorted_lt (ps : List Period) :
    (sortedIndex ps).Sorted (· < ·) :=
  (sortedIndex_sorted_le ps).lt_of_le (sortedIndex_nodup ps)

theorem sorted_le_getLast {l : List Period} (hs : l.Sorted (· ≤ ·)) (hne : l ≠ []) :
    ∀ x ∈ l, x ≤ l.getLast hne := by
  induction l with
  | nil => simp at hne
  | cons a t ih =>
    intro x hx
    cases t with
    | nil =>
      simp only [List.mem_singleton] at hx
      simp [hx]
    | cons b u =>
      have h2 : (b :: u) ≠ [] := by simp
      rw [List.getLast_cons h2]
      rcases List.mem_cons.mp hx with rfl | hx2
      · have hb : x ≤ b := (List.rel_of_sorted_cons hs) b (by simp)
        have hrest := ih (List.sorted_cons.mp hs).2 h2 b (by simp)
        exact le_trans hb hrest
      · exact ih (List.sorted_cons.mp hs).2 h2 x hx2

theorem foldl_max_le_self (t : List Period) (p : Period) : p ≤ t.foldl max p := by
  induction t generalizing p with
  | nil => simp
  | cons q u ih => exact le_trans (le_max_left p q) (ih (max p q))

theorem mem_le_foldl_max {x : Period} {t : List Period} (p : Period) (hx : x ∈ t) :
    x ≤ t.foldl max p := by
  induction t generalizing p with
  | nil => simp at hx
  | cons q u ih =>
    rcases List.mem_cons.mp hx with rfl | hx2
    · exact le_trans (le_max_right p x) (foldl_max_le_self u (max p x))
    · exact ih (max p q) hx2

theorem foldl_max_mem (t : List Period) (p : Period) :
    t.foldl max p = p ∨ t.foldl max p ∈ t := by
  induction t generalizing p with
  | nil => simp
  | cons q u ih =>
    rcases ih (max p q) with h | h
    · rcases max_choice p q with hm | hm
      · left
        simp only [List.foldl_cons]
        rw [h, hm]
      · right
        simp only [List.foldl_cons]
        rw [h, hm]
        exact List.mem_cons_self q u
    · right
      exact List.mem_cons_of_mem q h

theorem maxPeriod_mem {ps : List Period} {m : Period} (h : maxPeriod ps = some m) :
    m ∈ ps := by
  cases ps with
  | nil => simp [maxPeriod] at h
  | cons p t =>
    simp only [maxPeriod, Option.some_inj] at h
    rcases foldl_max_mem t p with h2 | h2
    · rw [← h, h2]
      exact List.mem_cons_self p t
    · rw [← h]
      exact List.mem_cons_of_mem p h2

theorem le_maxPeriod {ps : List Period} {m x : Period} (h : maxPeriod ps = some m)
    (hx : x ∈ ps) : x ≤ m := by
  cases ps with
  | nil => simp at hx
  | cons p t =>
    simp only [maxPeriod, Option.some_inj] at h
    rcases List.mem_cons.mp hx with rfl | hx2
    · rw [← h]
      exact foldl_max_le_self t x
    · rw [← h]
      exact mem_le_foldl_max p hx2

theorem filterMap_period_filter (g : Period → Option GmRow) (q : Period → Bool)
    (hg : ∀ p, (q p = true → ∃ row, g p = some row ∧ row.period = p) ∧
      (q p = false → g p = none)) :
    ∀ l : List Period, (l.filterMap g).map GmRow.period = l.filter q := by
  intro l
  induction l with
  | nil => simp
  | cons p t ih =>
    simp only [List.filterMap_cons, List.filter_cons]
    cases hq : q p with
    | false =>
      rw [(hg p).2 hq]
      simpa using ih
    | true =>
      obtain ⟨row, hrow, hper⟩ := (hg p).1 hq
      rw [hrow]
      simp [hper, ih]

/-- The periods of the `_series_gm` rows are exactly the index periods with
nonzero revenue, in order. -/
theorem seriesGm_map_period (rows : List NRow) :
    (seriesGm rows).map GmRow.period = nzRevPeriods rows := by
  unfold seriesGm nzRevPeriods
  apply filterMap_period_filter
  intro p
  constructor
  · intro hq
    refine ⟨⟨p, sumRev rows p, sumCogs rows p,
      (sumRev rows p - sumCogs rows p) / sumRev rows p * 100⟩, ?_, rfl⟩
    have hp : sumRev rows p ≠ 0 := by simpa using hq
    simp [hp]
  · intro hq
    have hp : ¬ sumRev rows p ≠ 0 := by simpa using hq
    simp [hp]

/-! ### Concrete fixtures used by witnesses and counterexamples -/

/-- June 2025. -/
def dJun : Date := ⟨2025, 6, 15⟩

/-- May 2025. -/
def dMay : Date := ⟨2025, 5, 1⟩

/-- April 2025. -/
def dApr : Date := ⟨2025, 4, 1⟩

/-- An entirely empty dataset. -/
def dfsEmpty : Dfs := ⟨[], [], [], []⟩

/-- A small well-formed dataset with actuals, budget, fx and cash. -/
def dfsStd : Dfs :=
  { actuals := [⟨dJun, "acme", "Revenue", "USD", 140000⟩,
                ⟨dJun, "acme", "COGS", "USD", 60000⟩,
                ⟨dMay, "acme", "Revenue", "USD", 100⟩],
    budget := [⟨dJun, "acme", "Total Revenue", "USD", 135000⟩],
    fx := [⟨dApr, "EUR", 11 / 10⟩],
    cash := [⟨dJun, "acme", "USD", 50000⟩] }

/-! ### C5 — month/year extraction -/

/-- C5: month/year extraction behaves as specified on the four reference
inputs, and the three strategies (month name + 4-digit year, numeric
`YYYY-M` / `YYYY/M`, bare month name with fallback year) are tried in that
order, the first success winning. -/
theorem c5_parse_month_year_spec :
    (parseMonthYear "June 2025".toList none = (some 2025, some 6)) ∧
    (parseMonthYear "2025-06".toList none = (some 2025, some 6)) ∧
    (parseMonthYear "June".toList (some 2025) = (some 2025, some 6)) ∧
    (parseMonthYear "June".toList none = (none, some 6)) ∧
    (∀ t fb y m, scanO monthYearAt (lowerList t) = some (y, m) →
      parseMonthYear t fb = (some y, some m)) ∧
    (∀ t fb y m, scanO monthYearAt (lowerList t) = none →
      scanO numericYmAt (lowerList t) = some (y, m) →
      parseMonthYear t fb = (some y, some m)) ∧
    (∀ t y m, scanO monthYearAt (lowerList t) = none →
      scanO numericYmAt (lowerList t) = none →
      bareMonthSearch (lowerList t) monthAliasItems = some m →
      0 < y → parseMonthYear t (some y) = (some y, some m)) := by
  refine ⟨by decide, by decide, by decide, by decide, ?_, ?_, ?_⟩
  · intro t fb y m h
    unfold parseMonthYear
    simp only [h]
  · intro t fb y m h1 h2
    unfold parseMonthYear
    simp only [h1, h2]
  · intro t y m h1 h2 h3 hy
    unfold parseMonthYear
    simp only [h1, h2, h3]
    simp [Nat.pos_iff_ne_zero.mp hy]

/-- C5 witness: the strategy-order clauses applied at concrete inputs. -/
theorem c5_parse_month_year_witness :
    parseMonthYear "report for march 2021 please".toList (some 1999) = (some 2021, some 3) ∧
    parseMonthYear "q3 2024/7 update".toList none = (some 2024, some 7) ∧
    parseMonthYear "april numbers".toList (some 2023) = (some 2023, some 4) :=
  ⟨(c5_parse_month_year_spec.2.2.2.2.1) _ (some 1999) 2021 3 (by decide),
   (c5_parse_month_year_spec.2.2.2.2.2.1) _ none 2024 7 (by decide) (by decide),
   (c5_parse_month_year_spec.2.2.2.2.2.2) _ 2023 4 (by decide) (by decide) (by decide)
     (by decide)⟩

/-! ### C9 — trailing-window extraction -/

/-- C9 counterexample: a text containing the phrase `last 5 months` (so the
claim as stated requires the extracted window to be 5) for which
`_parse_window` extracts 4, the leftmost phrase. -/
theorem c9_parse_window_counterexample :
    parseWindow "last 4 months last 5 months".toList 3 = 4 ∧
    scanB (fun s => windowAt s == some 5)
      (lowerList "last 4 months last 5 months".toList) = true ∧
    (4 : Nat) ≠ 5 := by
  decide

/-- C9 as amended: the window equals the `N` of the leftmost `last N months`
phrase (1–2 digit `N`); with no such phrase it defaults to 3.  Every
single-phrase text of the form `last N months` with `1 ≤ N ≤ 99` extracts
exactly `N`. -/
theorem c9_parse_window_spec :
    (parseWindow "last 5 months".toList 3 = 5) ∧
    (∀ t n, scanO windowAt (lowerList t) = some n → parseWindow t 3 = n) ∧
    (∀ t, scanO windowAt (lowerList t) = none → parseWindow t 3 = 3) ∧
    (∀ n, 1 ≤ n → n ≤ 99 →
      parseWindow (("last " ++ natStr n ++ " months").toList) 3 = n) := by
  refine ⟨by decide, ?_, ?_, ?_⟩
  · intro t n h
    unfold parseWindow
    simp only [h]
  · intro t h
    unfold parseWindow
    simp only [h]
  · intro n h1 h2
    interval_cases n <;> decide

/-- C9 witness: the general clauses applied at concrete inputs. -/
theorem c9_parse_window_witness :
    parseWindow "LAST 12 MONTHS of margin".toList 3 = 12 ∧
    parseWindow "gross margin trend".toList 3 = 3 ∧
    parseWindow "last 37 months".toList 3 = 37 :=
  ⟨(c9_parse_window_spec.2.1) _ 12 (by decide),
   (c9_parse_window_spec.2.2.1) _ (by decide),
   (c9_parse_window_spec.2.2.2) 37 (by decide) (by decide)⟩

/-! ### C10 — out-of-range month raises -/

/-- C10: the numeric month pattern performs no range validation —
`"2025-13"` parses to (2025, 13) — and on the well-formed dataset `dfsStd`
the question `revenue vs budget for 2025-13` makes `plan_and_execute` raise
(the `ValueError` of `pd.Timestamp` with month 13) instead of returning a
result or a guidance prompt. -/
theorem c10_out_of_range_month_raises :
    parseMonthYear "2025-13".toList none = (some 2025, some 13) ∧
    planAndExecute "revenue vs budget for 2025-13".toList dfsStd =
      .error "ValueError: month must be in 1..12" := by
  decide

/-! ### C6 — intent classification -/

/-- C6: intent classification is the first-match-wins evaluation of the
ordered rule table; the four reference questions classify as specified; and
an unclassified question always yields the fixed guidance message with a null
chart (and no exception — the result is `Except.ok`). -/
theorem c6_intent_classification_spec :
    (classifyIntent (lowerList "revenue vs budget for June".toList) = .revenueVsBudget) ∧
    (classifyIntent (lowerList "budget vs revenue June".toList) = .revenueVsBudget) ∧
    (classifyIntent (lowerList "gross margin".toList) = .unclassified) ∧
    (classifyIntent (lowerList "show cash runway".toList) = .cashRunway) ∧
    (∀ q, classifyIntent q = firstMatch intentRules q) ∧
    (∀ q dfs, classifyIntent (lowerList q) = .unclassified →
      planAndExecute q dfs = .ok ⟨unclassifiedMsg, none⟩) := by
  refine ⟨by decide, by decide, by decide, by decide, fun q => rfl, ?_⟩
  intro q dfs h
  unfold classifyIntent at h
  split_ifs at h with h1 h2 h3 h4
  unfold planAndExecute
  simp only [if_neg h1, if_neg h2, if_neg h3, if_neg h4]

/-- C6 witness: the unclassified clause applied at a concrete question. -/
theorem c6_intent_classification_witness :
    planAndExecute "tell me a joke".toList dfsEmpty = .ok ⟨unclassifiedMsg, none⟩ :=
  (c6_intent_classification_spec.2.2.2.2.2) _ dfsEmpty (by decide)

/-! ### C7 — missing month/year yields a prompt, not a computation -/

/-- C7: when the question classifies as revenue-vs-budget or opex-breakdown
but the month or the year cannot be resolved (fallback year included), the
interpreter returns the fixed month-and-year prompt with a null chart — an
`Except.ok` value independent of the ledger contents, so no metric is
computed and no exception is raised. -/
theorem c7_missing_month_year_prompt (q : List Char) (dfs : Dfs)
    (h : (parseMonthYear (lowerList q) (defaultYearOf dfs)).1 = none ∨
      (parseMonthYear (lowerList q) (defaultYearOf dfs)).2 = none) :
    (classifyIntent (lowerList q) = .revenueVsBudget →
      planAndExecute q dfs = .ok ⟨rvbPrompt, none⟩) ∧
    (classifyIntent (lowerList q) = .opexBreakdown →
      planAndExecute q dfs = .ok ⟨opexPrompt, none⟩) := by
  constructor
  · intro hc
    unfold classifyIntent at hc
    split_ifs at hc with h1 h2 h3 h4
    unfold planAndExecute
    simp only [if_pos h1]
    rcases hpr : parseMonthYear (lowerList q) (defaultYearOf dfs) with ⟨a, b⟩
    rw [hpr] at h
    cases a with
    | none => cases b <;> rfl
    | some y =>
      cases b with
      | none => rfl
      | some m =>
        rcases h with h | h <;> cases h
  · intro hc
    unfold classifyIntent at hc
    split_ifs at hc with h1 h2 h3 h4
    unfold planAndExecute
    simp only [if_neg h1, if_neg h2, if_pos h3]
    rcases hpr : parseMonthYear (lowerList q) (defaultYearOf dfs) with ⟨a, b⟩
    rw [hpr] at h
    cases a with
    | none => cases b <;> rfl
    | some y =>
      cases b with
      | none => rfl
      | some m =>
        rcases h with h | h <;> cases h

/-- C7 witness: both prompt clauses applied at concrete questions over the
empty dataset (no fallback year available). -/
theorem c7_missing_month_year_witness :
    planAndExecute "revenue vs budget".toList dfsEmpty = .ok ⟨rvbPrompt, none⟩ ∧
    planAndExecute "opex breakdown please".toList dfsEmpty = .ok ⟨opexPrompt, none⟩ :=
  ⟨(c7_missing_month_year_prompt _ dfsEmpty (by decide)).1 (by decide),
   (c7_missing_month_year_prompt _ dfsEmpty (by decide)).2 (by decide)⟩

/-! ### C8 — currency normalization -/

/-- C8: every normalized row satisfies `amount_usd = amount * rate`; a row
whose (period, currency) pair has no fx match gets rate 1 and keeps its
native amount exactly; a row with fx matches carries the rate of one of the
matching fx rows.  A ledger row with no fx match always yields its
identity-rate output row — missing rates are a silent default, and the
function is total (never an error). -/
theorem c8_merge_fx_spec (df : List LedgerRow) (fx : List FxRow) :
    (∀ n ∈ mergeFxLedger df fx,
      n.amountUsd = n.amount * n.rate ∧
      (fxMatches fx n.period n.currency = [] → n.rate = 1 ∧ n.amountUsd = n.amount) ∧
      (fxMatches fx n.period n.currency ≠ [] →
        ∃ f ∈ fxMatches fx n.period n.currency, n.rate = f.rate_to_usd)) ∧
    (∀ r ∈ df, fxMatches fx (periodOf r.date) r.currency = [] →
      (⟨periodOf r.date, strLower r.account, r.currency, r.amount, 1, r.amount * 1⟩ : NRow) ∈
        mergeFxLedger df fx) := by
  constructor
  · intro n hn
    rw [mergeFxLedger, List.mem_flatMap] at hn
    obtain ⟨r, hr, hnr⟩ := hn
    cases hms : fxMatches fx (periodOf r.date) r.currency with
    | nil =>
      simp only [hms] at hnr
      simp only [List.mem_singleton] at hnr
      subst hnr
      refine ⟨rfl, fun _ => ⟨rfl, mul_one _⟩, fun hne => absurd hms hne⟩
    | cons f fs =>
      simp only [hms] at hnr
      obtain ⟨f', hf', rfl⟩ := List.mem_map.mp hnr
      refine ⟨rfl, fun hnil => ?_, fun _ => ⟨f', ?_, rfl⟩⟩
      · rw [hnil] at hms
        cases hms
      · show f' ∈ fxMatches fx (periodOf r.date) r.currency
        rw [hms]
        exact hf'
  · intro r hr hms
    rw [mergeFxLedger, List.mem_flatMap]
    refine ⟨r, hr, ?_⟩
    simp only [hms]
    exact List.mem_singleton.mpr rfl

/-- C8 witness: a EUR row with no matching fx rate for its period keeps its
native amount at rate 1 in the merged output. -/
theorem c8_merge_fx_witness :
    (⟨periodOf dJun, strLower "Revenue", "EUR", 5, 1, 5 * 1⟩ : NRow) ∈
      mergeFxLedger [⟨dJun, "acme", "Revenue", "EUR", 5⟩] [⟨dJun, "USD", 2⟩] :=
  (c8_merge_fx_spec [⟨dJun, "acme", "Revenue", "EUR", 5⟩] [⟨dJun, "USD", 2⟩]).2
    ⟨dJun, "acme", "Revenue", "EUR", 5⟩ (by decide) (by decide)

/-! ### C3 — revenue vs budget variance -/

/-- C3: for a valid month, `revenue_vs_budget_usd` returns the USD-normalized
revenue sums with `variance_usd` = actual − budget, and `variance_pct` equal
to variance / budget × 100 when the budget is nonzero and exactly 0 when the
budget is exactly 0 (the returned field is a total rational — never
NaN/inf/undefined). -/
theorem c3_revenue_vs_budget_spec (dfs : Dfs) (year month : Nat)
    (h1 : 1 ≤ month) (h2 : month ≤ 12) :
    revenueVsBudgetUsd dfs year month =
      .ok { actualUsd := sumRev (mergeFxLedger dfs.actuals dfs.fx) (mkP year month),
            budgetUsd := sumRev (mergeFxLedger dfs.budget dfs.fx) (mkP year month),
            varianceUsd := sumRev (mergeFxLedger dfs.actuals dfs.fx) (mkP year month) -
              sumRev (mergeFxLedger dfs.budget dfs.fx) (mkP year month),
            variancePct :=
              if sumRev (mergeFxLedger dfs.budget dfs.fx) (mkP year month) = 0 then 0
              else (sumRev (mergeFxLedger dfs.actuals dfs.fx) (mkP year month) -
                  sumRev (mergeFxLedger dfs.budget dfs.fx) (mkP year month)) /
                sumRev (mergeFxLedger dfs.budget dfs.fx) (mkP year month) * 100,
            chart := Chart.barPair
              (sumRev (mergeFxLedger dfs.actuals dfs.fx) (mkP year month))
              (sumRev (mergeFxLedger dfs.budget dfs.fx) (mkP year month)) } := by
  have hts : mkTimestamp year month = .ok (mkP year month) := by
    unfold mkTimestamp
    rw [if_pos ⟨h1, h2⟩]
  unfold revenueVsBudgetUsd sumByAccount
  rw [hts]
  by_cases hb : sumRev (mergeFxLedger dfs.budget dfs.fx) (mkP year month) = 0
  · simp [hb, Except.bind]
    rfl
  · simp [hb, Except.bind]
    rfl

/-- C3 witness: both the zero-budget branch (April has no budget rows, so
`variance_pct = 0`) and the nonzero-budget branch (June). -/
theorem c3_revenue_vs_budget_witness :
    revenueVsBudgetUsd dfsStd 2025 4 = .ok ⟨0, 0, 0, 0, Chart.barPair 0 0⟩ ∧
    revenueVsBudgetUsd dfsStd 2025 6 =
      .ok ⟨140000, 135000, 5000, 100 / 27, Chart.barPair 140000 135000⟩ := by
  constructor
  · rw [c3_revenue_vs_budget_spec dfsStd 2025 4 (by norm_num) (by norm_num)]
    decide
  · rw [c3_revenue_vs_budget_spec dfsStd 2025 6 (by norm_num) (by norm_num)]
    decide

/-! ### C2 — the infinite-runway sentinel and its rendering -/

/-- A dataset whose only EBITDA month is profitable: runway is infinite. -/
def dfsRunwayInf : Dfs := ⟨[⟨dJun, "acme", "revenue", "USD", 100⟩], [], [], []⟩

/-- The runway result of `dfsRunwayInf`. -/
def crInf : CrResult := ⟨.inf, 0, -100, Chart.barLine [(mkP 2025 6, 100)] []⟩

/-- C2 counterexample: on `dfsRunwayInf` the runway months value is the
floating-point infinity (not a tagged non-numeric variant), and the narrative
produced for a runway question renders that sentinel through the numeric
`:.1f` formatter, which yields the token `inf` inside the text. -/
theorem c2_infinite_runway_counterexample :
    (cashRunwayMonths dfsRunwayInf).map CrResult.months = some PyFloat.inf ∧
    (planAndExecute "show cash runway".toList dfsRunwayInf).toOption.map PlanResult.text =
      some ("Cash runway: " ++ fmtFloat1 PyFloat.inf ++
        " months (Cash $0 / Avg monthly burn $-100).") ∧
    fmtFloat1 PyFloat.inf = "inf" := by
  with_unfolding_all decide

/-- C2 as amended: the infinite-runway result is the floating-point infinity
value, and the runway narrative renders it through the same numeric `:.1f`
formatting as finite values, where it appears as the token `inf`; it is never
shown as a finite number. -/
theorem c2_infinite_runway_spec (q : List Char) (dfs : Dfs) (r : CrResult)
    (hq : classifyIntent (lowerList q) = .cashRunway)
    (hr : cashRunwayMonths dfs = some r) (hm : r.months = PyFloat.inf) :
    planAndExecute q dfs = .ok ⟨runwayNarrative r, some r.chart⟩ ∧
    runwayNarrative r =
      "Cash runway: " ++ "inf" ++ " months (Cash $" ++ fmtComma0 r.cashUsd ++
        " / Avg monthly burn $" ++ fmtComma0 r.avgBurn ++ ")." := by
  constructor
  · unfold classifyIntent at hq
    split_ifs at hq with h1 h2 h3 h4
    unfold planAndExecute
    simp only [if_neg h1, if_neg h2, if_neg h3, if_pos h4, hr]
  · unfold runwayNarrative
    rw [hm]
    rfl

set_option maxRecDepth 4000 in
/-- C2 witness: the amended statement applied to `dfsRunwayInf`. -/
theorem c2_infinite_runway_witness :
    planAndExecute "show cash runway".toList dfsRunwayInf =
      .ok ⟨runwayNarrative crInf, some crInf.chart⟩ ∧
    runwayNarrative crInf =
      "Cash runway: " ++ "inf" ++ " months (Cash $" ++ fmtComma0 crInf.cashUsd ++
        " / Avg monthly burn $" ++ fmtComma0 crInf.avgBurn ++ ")." :=
  c2_infinite_runway_spec _ dfsRunwayInf crInf (by decide)
    (by with_unfolding_all decide) (by decide)

/-! ### C1 — cash runway -/

theorem tailN_eq_nil_iff {n : Nat} (hn : n ≠ 0) (l : List α) :
    tailN n l = [] ↔ l = [] := by
  constructor
  · intro h
    have hl := congrArg List.length h
    rw [tailN_length] at hl
    simp only [List.length_nil] at hl
    rcases Nat.min_eq_zero_iff.mp hl with h0 | h0
    · exact absurd h0 hn
    · exact List.length_eq_zero.mp h0
  · rintro rfl
    simp [tailN]

/-- The trailing EBITDA values of the code equal the spec-side per-period
EBITDA formula mapped over the trailing periods. -/
theorem trailing_ebitda_eq (rows : List NRow) :
    (tailN 3 (seriesEbitda rows)).map EbRow.ebitda =
      (trailingEbitdaPeriods rows).map
        (fun p => sumRev rows p - sumCogs rows p - sumOpex rows p) := by
  unfold seriesEbitda trailingEbitdaPeriods
  rw [tailN_map, List.map_map]
  rfl

/-- The latest-period cash total computed by the code (last entry of the
per-period sums over the sorted period index) is the spec-side total cash of
the maximal cash period. -/
theorem code_cash_eq_spec (cashRows : List CRow) :
    (match tailN 1 ((sortedIndex (cashRows.map CRow.period)).map
        (fun p => sumCashAt cashRows p)) with
      | [c] => c
      | _ => 0) = specCashUsd cashRows := by
  by_cases hps : cashRows.map CRow.period = []
  · rw [hps]
    unfold specCashUsd
    rw [hps]
    simp [sortedIndex, tailN, maxPeriod]
  · have hidx : sortedIndex (cashRows.map CRow.period) ≠ [] := by
      obtain ⟨x, hx⟩ := List.exists_mem_of_ne_nil _ hps
      exact List.ne_nil_of_mem (mem_sortedIndex.mpr hx)
    have hmap : (sortedIndex (cashRows.map CRow.period)).map
        (fun p => sumCashAt cashRows p) ≠ [] := by
      simpa using hidx
    rw [tailN_one _ hmap]
    obtain ⟨M, hM⟩ : ∃ M, maxPeriod (cashRows.map CRow.period) = some M := by
      cases hc : cashRows.map CRow.period with
      | nil => exact absurd hc hps
      | cons p t => exact ⟨t.foldl max p, rfl⟩
    have hlast : (sortedIndex (cashRows.map CRow.period)).getLast hidx = M := by
      apply le_antisymm
      · exact le_maxPeriod hM (mem_sortedIndex.mp (List.getLast_mem hidx))
      · exact sorted_le_getLast (sortedIndex_sorted_le _) hidx M
          (mem_sortedIndex.mpr (maxPeriod_mem hM))
    show ((sortedIndex (cashRows.map CRow.period)).map
      (fun p => sumCashAt cashRows p)).getLast hmap = specCashUsd cashRows
    rw [List.getLast_map _ _ hmap]
    unfold specCashUsd
    rw [hM]
    have hg : (sortedIndex (cashRows.map CRow.period)).getLast
        (by simpa using hmap) = M := hlast
    rw [hg]

/-- C1 (amended): `cash_runway_months` returns the no-result sentinel exactly
when the actuals yield no EBITDA period.  Otherwise its `avg_burn` is the
negated mean of per-period EBITDA over the trailing up-to-3 periods, its
`cash_usd` is the total normalized cash of the single latest cash period, the
result is the infinite sentinel exactly when `avg_burn ≤ 0`, and otherwise it
is the finite value `cash_usd / avg_burn` — positive whenever `cash_usd` is
positive. -/
theorem c1_cash_runway_spec (dfs : Dfs) :
    (cashRunwayMonths dfs = none ↔
      seriesEbitda (mergeFxLedger dfs.actuals dfs.fx) = []) ∧
    (∀ r, cashRunwayMonths dfs = some r →
      r.avgBurn = specAvgBurn (mergeFxLedger dfs.actuals dfs.fx) ∧
      r.cashUsd = specCashUsd (mergeFxCash dfs.cash dfs.fx) ∧
      (r.months = PyFloat.inf ↔ r.avgBurn ≤ 0) ∧
      (0 < r.avgBurn → r.months = PyFloat.fin (r.cashUsd / r.avgBurn)) ∧
      (0 < r.avgBurn → 0 < r.cashUsd → ∃ x, r.months = PyFloat.fin x ∧ 0 < x)) := by
  by_cases he : seriesEbitda (mergeFxLedger dfs.actuals dfs.fx) = []
  · have hnone : cashRunwayMonths dfs = none := by
      simp only [cashRunwayMonths, he]
      simp [tailN]
    refine ⟨⟨fun _ => he, fun _ => hnone⟩, ?_⟩
    intro r hr
    rw [hnone] at hr
    cases hr
  · have htail : tailN 3 (seriesEbitda (mergeFxLedger dfs.actuals dfs.fx)) ≠ [] := by
      rw [ne_eq, tailN_eq_nil_iff (by norm_num)]
      exact he
    have hcond : (tailN 3 (seriesEbitda (mergeFxLedger dfs.actuals dfs.fx))).isEmpty = false := by
      rw [List.isEmpty_eq_false_iff_exists_mem]
      obtain ⟨x, hx⟩ := List.exists_mem_of_ne_nil _ htail
      exact ⟨x, hx⟩
    have hsome : cashRunwayMonths dfs = some
        { months :=
            if -(listMean ((tailN 3 (seriesEbitda (mergeFxLedger dfs.actuals dfs.fx))).map
                EbRow.ebitda)) ≤ 0 then PyFloat.inf
            else PyFloat.fin
              ((match tailN 1 ((sortedIndex ((mergeFxCash dfs.cash dfs.fx).map CRow.period)).map
                  (fun p => sumCashAt (mergeFxCash dfs.cash dfs.fx) p)) with
                | [c] => c
                | _ => 0) /
               -(listMean ((tailN 3 (seriesEbitda (mergeFxLedger dfs.actuals dfs.fx))).map
                  EbRow.ebitda))),
          cashUsd :=
            match tailN 1 ((sortedIndex ((mergeFxCash dfs.cash dfs.fx).map CRow.period)).map
                (fun p => sumCashAt (mergeFxCash dfs.cash dfs.fx) p)) with
              | [c] => c
              | _ => 0,
          avgBurn := -(listMean ((tailN 3 (seriesEbitda (mergeFxLedger dfs.actuals dfs.fx))).map
            EbRow.ebitda)),
          chart := Chart.barLine
            ((tailN 3 (seriesEbitda (mergeFxLedger dfs.actuals dfs.fx))).map
              (fun r => (r.period, r.ebitda)))
            ((tailN 1 (sortedIndex ((mergeFxCash dfs.cash dfs.fx).map CRow.period))).zip
              (tailN 1 ((sortedIndex ((mergeFxCash dfs.cash dfs.fx).map CRow.period)).map
                (fun p => sumCashAt (mergeFxCash dfs.cash dfs.fx) p)))) } := by
      simp only [cashRunwayMonths, hcond, Bool.false_eq_true, if_false]
    constructor
    · rw [hsome]
      constructor
      · intro h
        cases h
      · intro h
        exact absurd h he
    · intro r hr
      rw [hsome] at hr
      have hre := (Option.some.inj hr).symm
      subst hre
      refine ⟨?_, ?_, ?_, ?_, ?_⟩
      · dsimp only
        unfold specAvgBurn
        rw [trailing_ebitda_eq]
      · dsimp only
        exact code_cash_eq_spec _
      · dsimp only
        by_cases hb : -(listMean ((tailN 3 (seriesEbitda
            (mergeFxLedger dfs.actuals dfs.fx))).map EbRow.ebitda)) ≤ 0
        · rw [if_pos hb]
          exact ⟨fun _ => hb, fun _ => rfl⟩
        · rw [if_neg hb]
          constructor
          · intro h
            cases h
          · intro h
            exact absurd h hb
      · dsimp only
        intro hpos
        have hb : ¬ -(listMean ((tailN 3 (seriesEbitda
            (mergeFxLedger dfs.actuals dfs.fx))).map EbRow.ebitda)) ≤ 0 := not_le.mpr hpos
        rw [if_neg hb]
      · dsimp only
        intro hpos hcash
        have hb : ¬ -(listMean ((tailN 3 (seriesEbitda
            (mergeFxLedger dfs.actuals dfs.fx))).map EbRow.ebitda)) ≤ 0 := not_le.mpr hpos
        rw [if_neg hb]
        exact ⟨_, rfl, div_pos hcash hpos⟩

/-- A dataset with a burning month and nonzero cash: finite positive runway. -/
def dfsRunwayFin : Dfs :=
  ⟨[⟨dJun, "acme", "opex:rent", "USD", 100⟩], [], [], [⟨dJun, "acme", "USD", 500⟩]⟩

/-- The runway result of `dfsRunwayFin`. -/
def crRun : CrResult :=
  ⟨.fin 5, 500, 100, Chart.barLine [(mkP 2025 6, -100)] [(mkP 2025 6, 500)]⟩

set_option maxRecDepth 8000 in
/-- C1 witness: the finite-runway clauses applied to `dfsRunwayFin`. -/
theorem c1_cash_runway_witness :
    crRun.months = PyFloat.fin (crRun.cashUsd / crRun.avgBurn) ∧
    (∃ x, crRun.months = PyFloat.fin x ∧ 0 < x) :=
  ⟨((c1_cash_runway_spec dfsRunwayFin).2 crRun
      (by with_unfolding_all decide)).2.2.2.1 (by norm_num [crRun]),
   ((c1_cash_runway_spec dfsRunwayFin).2 crRun
      (by with_unfolding_all decide)).2.2.2.2 (by norm_num [crRun]) (by norm_num [crRun])⟩

/-- A dataset with a burning month and an empty cash table. -/
def dfsBurnNoCash : Dfs := ⟨[⟨dJun, "acme", "opex:rent", "USD", 100⟩], [], [], []⟩

/-- C1 counterexample: on `dfsBurnNoCash` the trailing burn is positive
(avg EBITDA < 0), yet the returned runway is the finite value 0 — not a
positive value as the claim states. -/
theorem c1_cash_runway_counterexample :
    (cashRunwayMonths dfsBurnNoCash).map (fun r => (r.months, r.cashUsd, r.avgBurn)) =
      some (PyFloat.fin 0, 0, 100) ∧
    ¬ ∃ x : ℚ, (cashRunwayMonths dfsBurnNoCash).map CrResult.months =
      some (PyFloat.fin x) ∧ 0 < x := by
  have hval : (cashRunwayMonths dfsBurnNoCash).map (fun r => (r.months, r.cashUsd, r.avgBurn)) =
      some (PyFloat.fin 0, 0, 100) := by
    with_unfolding_all decide
  refine ⟨hval, ?_⟩
  rintro ⟨x, hx, hpos⟩
  have h0 : (cashRunwayMonths dfsBurnNoCash).map CrResult.months = some (PyFloat.fin 0) := by
    with_unfolding_all decide
  rw [h0] at hx
  have := PyFloat.fin.inj (Option.some.inj hx)
  rw [← this] at hpos
  exact lt_irrefl 0 hpos

/-! ### C4 — gross-margin trend -/

/-- The normalized actuals, `_normalize_accounts(_merge_fx(actuals, fx))`,
as computed at the head of every metric function. -/
def actualRows (dfs : Dfs) : List NRow := mergeFxLedger dfs.actuals dfs.fx

/-- Fields of a `_series_gm` row: nonzero revenue and the margin formula. -/
theorem mem_seriesGm {rows : List NRow} {g : GmRow} (hg : g ∈ seriesGm rows) :
    sumRev rows g.period ≠ 0 ∧ g.revenue = sumRev rows g.period ∧
    g.cogs = sumCogs rows g.period ∧ g.gmPct = (g.revenue - g.cogs) / g.revenue * 100 := by
  unfold seriesGm at hg
  obtain ⟨p, hp, hsome⟩ := List.mem_filterMap.mp hg
  by_cases h : sumRev rows p = 0
  · simp [h] at hsome
  · rw [if_pos h] at hsome
    have := Option.some.inj hsome
    subst this
    exact ⟨h, rfl, rfl, rfl⟩

/-- The nonzero-revenue period list is strictly ascending. -/
theorem nzRevPeriods_sorted (rows : List NRow) :
    (nzRevPeriods rows).Sorted (· < ·) :=
  List.Pairwise.sublist (List.filter_sublist _) (sortedIndex_sorted_lt _)

/-- In a strictly ascending list, every element outside the final drop
precedes every element of the drop. -/
theorem sorted_dropped_lt {l : List Period} (hs : l.Sorted (· < ·)) (k : Nat) :
    ∀ p ∈ l, p ∉ l.drop k → ∀ q ∈ l.drop k, p < q := by
  intro p hp hpn q hq
  have hsplit : l.take k ++ l.drop k = l := List.take_append_drop k l
  rw [← hsplit] at hs
  obtain ⟨-, -, hcross⟩ := List.pairwise_append.mp hs
  rw [← hsplit] at hp
  rcases List.mem_append.mp hp with hpt | hpd
  · exact hcross p hpt q hq
  · exact absurd hpd hpn

/-- C4: the gross-margin series is the rendering of the last `N` rows of the
`_series_gm` frame; those rows are chronologically ordered, all have nonzero
aggregated revenue and carry the margin formula; the series length is at most
`N` and equals `min N` (number of nonzero-revenue periods); the period list
is exactly the trailing `N` of the ascending nonzero-revenue period history —
a suffix, so every excluded nonzero-revenue period is strictly older than
every included one. -/
theorem c4_gross_margin_trend_spec (dfs : Dfs) (N : Nat) :
    ((grossMarginTrendPct dfs N).series =
      (tailN N (seriesGm (actualRows dfs))).map (fun g => ⟨fmtYm g.period, g.gmPct⟩)) ∧
    ((tailN N (seriesGm (actualRows dfs))).map GmRow.period).Sorted (· < ·) ∧
    (∀ g ∈ tailN N (seriesGm (actualRows dfs)),
      sumRev (actualRows dfs) g.period ≠ 0 ∧
      g.revenue = sumRev (actualRows dfs) g.period ∧
      g.cogs = sumCogs (actualRows dfs) g.period ∧
      g.gmPct = (g.revenue - g.cogs) / g.revenue * 100) ∧
    ((tailN N (seriesGm (actualRows dfs))).length ≤ N) ∧
    ((tailN N (seriesGm (actualRows dfs))).length =
      min N (nzRevPeriods (actualRows dfs)).length) ∧
    ((tailN N (seriesGm (actualRows dfs))).map GmRow.period =
      tailN N (nzRevPeriods (actualRows dfs))) ∧
    List.IsSuffix ((tailN N (seriesGm (actualRows dfs))).map GmRow.period)
      (nzRevPeriods (actualRows dfs)) ∧
    (∀ p ∈ nzRevPeriods (actualRows dfs),
      p ∉ (tailN N (seriesGm (actualRows dfs))).map GmRow.period →
      ∀ q ∈ (tailN N (seriesGm (actualRows dfs))).map GmRow.period, p < q) := by
  have hmap : (tailN N (seriesGm (actualRows dfs))).map GmRow.period =
      tailN N (nzRevPeriods (actualRows dfs)) := by
    rw [← tailN_map, seriesGm_map_period]
  refine ⟨rfl, ?_, ?_, ?_, ?_, hmap, ?_, ?_⟩
  · rw [hmap]
    exact List.Pairwise.sublist (tailN_sublist _ _) (nzRevPeriods_sorted _)
  · intro g hg
    exact mem_seriesGm ((tailN_sublist N _).mem hg)
  · rw [tailN_length]
    exact min_le_left _ _
  · rw [tailN_length]
    congr 1
    have := congrArg List.length (seriesGm_map_period (actualRows dfs))
    rwa [List.length_map] at this
  · rw [hmap]
    exact tailN_suffix _ _
  · rw [hmap]
    exact sorted_dropped_lt (nzRevPeriods_sorted _) _

/-- A dataset with three nonzero-revenue months and one zero-revenue month. -/
def dfsGm : Dfs :=
  { actuals := [⟨⟨2025, 3, 1⟩, "acme", "revenue", "USD", 0⟩,
                ⟨dApr, "acme", "revenue", "USD", 100⟩,
                ⟨dApr, "acme", "cogs", "USD", 50⟩,
                ⟨dMay, "acme", "revenue", "USD", 200⟩,
                ⟨dMay, "acme", "cogs", "USD", 150⟩,
                ⟨dJun, "acme", "revenue", "USD", 400⟩,
                ⟨dJun, "acme", "cogs", "USD", 100⟩],
    budget := [], fx := [], cash := [] }

set_option maxRecDepth 8000 in
/-- C4 witness: on `dfsGm` with `last_n = 2`, the series is exactly the two
most recent nonzero-revenue months (March, whose revenue is zero, is absent;
April is excluded by the window) with their margin percentages. -/
theorem c4_gross_margin_trend_witness :
    (grossMarginTrendPct dfsGm 2).series =
      [⟨"2025-05", 25⟩, ⟨"2025-06", 75⟩] ∧
    tailN 2 (nzRevPeriods (actualRows dfsGm)) = [mkP 2025 5, mkP 2025 6] ∧
    (tailN 2 (seriesGm (actualRows dfsGm))).length = min 2 3 := by
  refine ⟨?_, ?_, ?_⟩
  · rw [(c4_gross_margin_trend_spec dfsGm 2).1]
    with_unfolding_all decide
  · with_unfolding_all decide
  · rw [(c4_gross_margin_trend_spec dfsGm 2).2.2.2.2.1]
    with_unfolding_all decide

end FinnAI
